import Mathlib

/-!
Verification of the media download API core (src/app.py) against its
natural-language specification.

The embedding models the pure logic of the source: pathlib path handling
(parsing, joining, lexical resolution without symlinks), the on-disk state as
explicit sets of file and directory paths, subprocess results as explicit
data, and every fallible route handler as a function into
`Except HttpError`.  Python strings are Lean strings; `str.splitlines`,
`str.strip` and the path-redaction regular expression are implemented
character by character following CPython semantics (the whitespace and
line-break sets are restricted to the characters that can realistically
occur in tool output).
-/

namespace MediaDL

/-! ## Python string primitives -/

/-- Characters treated as whitespace by `str.strip` and by the `\s` class of
the path redaction pattern (ASCII whitespace plus the common one-byte
Unicode whitespace characters). -/
def isSpaceChar (c : Char) : Bool :=
  c == ' ' || c == '\t' || c == '\n' || c == '\r' || c == '\x0b' || c == '\x0c' ||
  c == '\x1c' || c == '\x1d' || c == '\x1e' || c == '\x1f' || c == '\x85' || c == '\xa0'

/-- Line-break characters recognised by `str.splitlines`. -/
def isLineBreak (c : Char) : Bool :=
  c == '\n' || c == '\r' || c == '\x0b' || c == '\x0c' || c == '\x1c' ||
  c == '\x1d' || c == '\x1e' || c == '\x85' || c == '\u2028' || c == '\u2029'

/-- Worker for `splitLines`: accumulates the current line in reverse. -/
def splitLinesAux : List Char → List Char → List (List Char)
  | cur, [] => if cur = [] then [] else [cur.reverse]
  | cur, '\r' :: '\n' :: rest => cur.reverse :: splitLinesAux [] rest
  | cur, c :: rest =>
      if isLineBreak c then cur.reverse :: splitLinesAux [] rest
      else splitLinesAux (c :: cur) rest

/-- `str.splitlines`: split on line breaks, treating a trailing terminator as
closing the last line rather than opening an empty one. -/
def splitLines (s : String) : List String :=
  (splitLinesAux [] s.toList).map (fun l => String.mk l)

/-- `str.strip`: remove leading and trailing whitespace. -/
def pyStrip (s : String) : String :=
  String.mk (((s.toList.dropWhile isSpaceChar).reverse.dropWhile isSpaceChar).reverse)

/-- The list comprehension used at src/app.py:194 and :254:
strip every line of the raw text and keep the non-empty results. -/
def nonEmptyLines (raw : String) : List String :=
  ((splitLines raw).map pyStrip).filter (fun s => decide (s ≠ ""))

/-- `str.lower` (ASCII case folding, which covers the registry patterns). -/
def lowerStr (s : String) : String :=
  String.mk (s.toList.map Char.toLower)

/-- Worker for `containsSub`: does the needle occur at any position? -/
def containsSubChars (needle : List Char) : List Char → Bool
  | [] => needle.isEmpty
  | c :: rest => needle.isPrefixOf (c :: rest) || containsSubChars needle rest

/-- Case-sensitive substring test, used to model `re.search` on the literal
alternation patterns of the service registry. -/
def containsSub (hay needle : String) : Bool :=
  containsSubChars needle.toList hay.toList

/-! ## pathlib model

A `PurePath` is an absolutity flag plus the list of components left after
parsing (pathlib drops empty and single-dot components at construction).
`resolveComps` is the lexical resolution of `Path.resolve` for a process
with no symlinks: single dots vanish and a double dot removes the previous
component, staying at the root when there is none. -/

structure PurePath where
  absolute : Bool
  comps : List String
deriving DecidableEq, Repr

/-- Worker for `parsePath`: split a raw string on the slash character. -/
def splitSlashAux : List Char → List Char → List String
  | cur, [] => [String.mk cur.reverse]
  | cur, c :: rest =>
      if c == '/' then String.mk cur.reverse :: splitSlashAux [] rest
      else splitSlashAux (c :: cur) rest

/-- `pathlib.Path(s)` for POSIX strings. -/
def parsePath (s : String) : PurePath :=
  let isAbs : Bool :=
    match s.toList with
    | '/' :: _ => true
    | _ => false
  let comps := (splitSlashAux [] s.toList).filter
    (fun c => decide (c ≠ "") && decide (c ≠ "."))
  ⟨isAbs, comps⟩

/-- The `/` operator of pathlib: an absolute right operand overrides. -/
def joinPath (p q : PurePath) : PurePath :=
  if q.absolute then q else ⟨p.absolute, p.comps ++ q.comps⟩

/-- One step of lexical resolution. -/
def resolveStep (acc : List String) (c : String) : List String :=
  if c = "." then acc
  else if c = ".." then acc.dropLast
  else acc ++ [c]

/-- Lexical resolution of the component list of an absolute path. -/
def resolveComps (cs : List String) : List String :=
  List.foldl resolveStep [] cs

/-- `Path.resolve` with the given (already resolved) working directory:
a relative path is interpreted from the working directory. -/
def resolveAbs (cwd : List String) (p : PurePath) : List String :=
  if p.absolute then resolveComps p.comps else resolveComps (cwd ++ p.comps)

/-- A component that survives resolution unchanged. -/
def okComp (c : String) : Bool :=
  decide (c ≠ ".") && decide (c ≠ "..")

/-- An already-resolved component list (what `Path.resolve` returns). -/
def normComps (cs : List String) : Bool :=
  cs.all okComp

/-- `child.relative_to(base)` succeeds exactly when `base` is a leading
segment of `child`; equality is accepted as containment. -/
def isDescendant : List String → List String → Bool
  | [], _ => true
  | _ :: _, [] => false
  | a :: as, b :: bs => decide (a = b) && isDescendant as bs

/-- `Path.name`: the final component, or the empty string at the root. -/
def lastName : List String → String
  | [] => ""
  | [a] => a
  | _ :: rest => lastName rest

/-- `Path.suffix` of a single name: the part from the last dot on, provided
the dot is neither the first nor the last character. -/
def suffixChars (cs : List Char) : List Char :=
  match cs.reverse.findIdx? (fun c => c == '.') with
  | none => []
  | some d =>
      let i := cs.length - 1 - d
      if 0 < i ∧ 0 < d then cs.drop i else []

/-- String version of `Path.suffix` for a final component. -/
def suffixStr (name : String) : String :=
  String.mk (suffixChars name.toList)

/-! ## Error sanitizer (src/app.py:186-196)

The redaction regular expression of the source matches a leading slash or a
drive-letter prefix followed by at least one character that is neither
whitespace nor a quote, greedily.  `pathMatchLen` computes the length of the
match starting at a given position (zero when there is none), and
`redactAux` performs the leftmost scan of `re.sub`, continuing after each
replaced match.  The fuel argument is bounded by the text length, which
suffices because every step consumes at least one character. -/

def isAlphaChar (c : Char) : Bool :=
  ('a' ≤ c && c ≤ 'z') || ('A' ≤ c && c ≤ 'Z')

/-- A character admitted by the body class of the redaction pattern. -/
def isPathBodyChar (c : Char) : Bool :=
  !(isSpaceChar c || c == Char.ofNat 34 || c == Char.ofNat 39)

/-- Length of the redaction-pattern match starting at this position. -/
def pathMatchLen : List Char → Nat
  | '/' :: rest =>
      let b := (rest.takeWhile isPathBodyChar).length
      if b = 0 then 0 else b + 1
  | c :: ':' :: '\\' :: rest =>
      if isAlphaChar c then
        let b := (rest.takeWhile isPathBodyChar).length
        if b = 0 then 0 else b + 3
      else 0
  | _ => 0

/-- The fixed redaction token. -/
def redactTokChars : List Char := "<redacted>".toList

/-- Leftmost scan of `re.sub` for the path pattern. -/
def redactAux : Nat → List Char → List Char
  | 0, l => l
  | _ + 1, [] => []
  | fuel + 1, c :: rest =>
      let n := pathMatchLen (c :: rest)
      if n = 0 then c :: redactAux fuel rest
      else redactTokChars ++ redactAux fuel ((c :: rest).drop n)

/-- `_PATH_PATTERN.sub` of src/app.py:186. -/
def redactPaths (s : String) : String :=
  String.mk (redactAux s.toList.length s.toList)

/-- `_sanitize_error` of src/app.py:189-196: keep at most the last two
non-empty stripped lines, join them, and redact path-like substrings. -/
def sanitize_error (raw : String) : String :=
  let lines := nonEmptyLines raw
  let excerpt :=
    if lines = [] then "Unknown error."
    else String.intercalate " | " (lines.drop (lines.length - 2))
  redactPaths excerpt

/-! ## Filesystem state and HTTP errors -/

/-- The outcome detail of a raised `HTTPException`. -/
structure HttpError where
  code : Nat
  detail : String
deriving DecidableEq, Repr

/-- The disk contents visible to the service: resolved absolute paths of
regular files and of directories. -/
structure FsState where
  files : List (List String)
  dirs : List (List String)
deriving DecidableEq, Repr

/-- Membership of a path in a path list. -/
def memB (p : List String) : List (List String) → Bool
  | [] => false
  | q :: l => decide (q = p) || memB p l

/-- `Path.exists`: true for files and directories alike. -/
def pathExists (st : FsState) (p : List String) : Bool :=
  memB p st.files || memB p st.dirs

/-- `Path.is_file`. -/
def isFile (st : FsState) (p : List String) : Bool :=
  memB p st.files

/-- Removal of one path from a path list. -/
def removeAll : List (List String) → List String → List (List String)
  | [], _ => []
  | q :: l, p => if q = p then removeAll l p else q :: removeAll l p

/-- `_delete_file` of src/app.py:278-284: `unlink(missing_ok=True)` inside a
catch-all handler.  Deleting a missing path or a directory changes nothing
and never raises; the function is total. -/
def delete_file (st : FsState) (p : List String) : FsState :=
  ⟨removeAll st.files p, st.dirs⟩

/-! ## Retrieval endpoint (src/app.py:427-463) -/

/-- The allow-list of src/app.py:53-55. -/
def ALLOWED_EXTENSIONS : List String :=
  [".mp4", ".webm", ".mkv", ".mp3", ".m4a", ".opus", ".ogg", ".flv", ".avi", ".mov"]

/-- `(DOWNLOADS_DIR / filename).resolve()` of src/app.py:431, for a storage
directory with the given resolved component list. -/
def resolvedRequestPath (dir : List String) (filename : String) : List String :=
  resolveComps (joinPath (PurePath.mk true dir) (parsePath filename)).comps

/-- `get_downloaded_file` of src/app.py:427-463 up to the point where the
file response is built: traversal guard, extension guard, existence guard,
then the path that will be streamed. -/
def get_downloaded_file (dir : List String) (st : FsState) (filename : String) :
    Except HttpError (List String) :=
  if isDescendant (resolveComps dir) (resolvedRequestPath dir filename) = false then
    Except.error ⟨400, "Invalid file path."⟩
  else if ALLOWED_EXTENSIONS.contains
      (lowerStr (suffixStr (lastName (resolvedRequestPath dir filename)))) = false then
    Except.error ⟨400, "File type not permitted."⟩
  else if (pathExists st (resolvedRequestPath dir filename) &&
      isFile st (resolvedRequestPath dir filename)) = false then
    Except.error ⟨404, "File not found or has already been deleted."⟩
  else
    Except.ok (resolvedRequestPath dir filename)

/-- Which rejection guard of `get_downloaded_file` fires. -/
inductive RejectKind where
  | traversal
  | badType
  | notFound
deriving DecidableEq, Repr

/-- The status code of each rejection guard. -/
def rejectCode : RejectKind → Nat
  | .traversal => 400
  | .badType => 400
  | .notFound => 404

/-- The fixed detail string of each rejection guard; a function of the
guard alone, never of the requested filename. -/
def rejectDetail : RejectKind → String
  | .traversal => "Invalid file path."
  | .badType => "File type not permitted."
  | .notFound => "File not found or has already been deleted."

/-- The guard conditions of `get_downloaded_file`, recorded as which guard
rejects the request (`none` when the file is served). -/
def rejBranch (dir : List String) (st : FsState) (filename : String) :
    Option RejectKind :=
  if isDescendant (resolveComps dir) (resolvedRequestPath dir filename) = false then
    some .traversal
  else if ALLOWED_EXTENSIONS.contains
      (lowerStr (suffixStr (lastName (resolvedRequestPath dir filename)))) = false then
    some .badType
  else if (pathExists st (resolvedRequestPath dir filename) &&
      isFile st (resolvedRequestPath dir filename)) = false then
    some .notFound
  else
    none

/-! ## Download invocation (src/app.py:199-271)

`run_download_completed` is the part of `_run_download` that runs after the
subprocess has exited: the non-zero branch with its sanitized diagnostic,
and the zero branch that extracts the last non-empty stdout line, checks
containment of the resolved candidate in the storage directory, checks
existence, and returns the message and the bare filename. -/

def run_download_completed (dir cwd : List String) (st : FsState)
    (service_name : String) (rc : Int) (stdout stderr : String) :
    Except HttpError (String × String) :=
  if rc ≠ 0 then
    Except.error ⟨422, service_name ++ " download failed: " ++
      sanitize_error
        (if pyStrip stderr ≠ "" then pyStrip stderr
         else if pyStrip stdout ≠ "" then pyStrip stdout
         else "Unknown download error.")⟩
  else
    match (nonEmptyLines stdout).getLast? with
    | none =>
        Except.error ⟨500, "Download completed but the output file could not be located."⟩
    | some lastLine =>
        if isDescendant (resolveComps dir) (resolveAbs cwd (parsePath lastLine)) = false then
          Except.error ⟨500, "Download completed but the output file could not be located."⟩
        else if pathExists st (resolveAbs cwd (parsePath lastLine)) = false then
          Except.error ⟨500, "Download completed but the output file could not be located."⟩
        else
          Except.ok ("Download completed via " ++ service_name ++ ".",
            lastName (parsePath lastLine).comps)

/-! ## Service registry (src/app.py:134-166) -/

/-- A registry entry: the compiled pattern of every registered service is a
case-insensitive alternation of literal strings, recorded here as the list
of lower-case alternatives. -/
structure ServiceExtension where
  name : String
  patternAlts : List String
deriving DecidableEq, Repr

/-- `ServiceExtension.matches`: `re.search` with `re.I` on a literal
alternation is a case-insensitive substring test on each alternative. -/
def svcMatches (e : ServiceExtension) (url : String) : Bool :=
  e.patternAlts.any (fun p => containsSub (lowerStr url) p)

def ytExt : ServiceExtension := ⟨"YouTube", ["youtube.com", "youtu.be"]⟩

def igExt : ServiceExtension := ⟨"Instagram", ["instagram.com"]⟩

def fbExt : ServiceExtension := ⟨"Facebook", ["facebook.com", "fb.watch"]⟩

def ttExt : ServiceExtension := ⟨"TikTok", ["tiktok.com"]⟩

def genExt : ServiceExtension := ⟨"Generic", ["http://", "https://"]⟩

/-- The registration order of src/app.py:162-166. -/
def registryList : List ServiceExtension :=
  [ytExt, igExt, fbExt, ttExt, genExt]

/-- `ServiceRegistry.resolve`: the first registered extension whose pattern
matches, in registration order. -/
def resolve (url : String) : Option ServiceExtension :=
  List.find? (fun e => svcMatches e url) registryList

/-- The service resolution step of `download_video` (src/app.py:393-400):
an unresolved URL raises 422, otherwise the extension is used. -/
def download_resolve (url : String) : Except HttpError ServiceExtension :=
  match resolve url with
  | none => Except.error ⟨422, "No extension available for this URL."⟩
  | some e => Except.ok e

/-! ## Cleanup loop (src/app.py:287-303)

One pass of the `for f in DOWNLOADS_DIR.iterdir()` body, over a snapshot of
what each enumerated entry looks like at the two inspection points: the
`f.is_file()` call and the `f.stat()` call.  A file deleted concurrently
before the `is_file` check makes `is_file` return false; a file deleted
between the `is_file` check and the `stat` call makes `stat` raise
`FileNotFoundError`, which nothing in `_cleanup_loop` catches.  The result
records the deletion attempts performed before the pass either finishes or
is aborted by that uncaught exception (second component true). -/

structure EntrySnap where
  path : List String
  isFileAtCheck : Bool
  presentAtStat : Bool
  mtime : Nat
deriving DecidableEq, Repr

def FILE_TTL_SECONDS : Nat := 900

/-- One iteration of the cleanup scan over the enumerated entries. -/
def cleanupIterate (now ttl : Nat) : List EntrySnap → List (List String) × Bool
  | [] => ([], false)
  | e :: rest =>
      if e.isFileAtCheck = false then cleanupIterate now ttl rest
      else if e.presentAtStat = false then ([], true)
      else
        let del := if now - e.mtime > ttl then [e.path] else []
        let r := cleanupIterate now ttl rest
        (del ++ r.1, r.2)

/-- A filename string that parses to exactly one relative component, i.e.
the bare name of a direct child of the storage directory. -/
def goodName (s : String) : Bool :=
  decide (parsePath s = PurePath.mk false [s])

/-! ## Basic lemmas about the path model -/

lemma resolveStep_ok (acc : List String) (c : String) (h : okComp c = true) :
    resolveStep acc c = acc ++ [c] := by
  unfold okComp at h
  rw [Bool.and_eq_true, decide_eq_true_iff, decide_eq_true_iff] at h
  unfold resolveStep
  rw [if_neg h.1, if_neg h.2]

lemma foldl_resolveStep_norm (cs : List String) (h : normComps cs = true) :
    ∀ acc, List.foldl resolveStep acc cs = acc ++ cs := by
  induction cs with
  | nil => intro acc; simp
  | cons c cs ih =>
      intro acc
      unfold normComps at h
      rw [List.all_cons, Bool.and_eq_true] at h
      rw [List.foldl_cons, resolveStep_ok acc c h.1, ih h.2 (acc ++ [c])]
      simp

lemma resolveComps_eq_self (cs : List String) (h : normComps cs = true) :
    resolveComps cs = cs := by
  unfold resolveComps
  rw [foldl_resolveStep_norm cs h []]
  simp

lemma normComps_append1 (cs : List String) (a : String)
    (h1 : normComps cs = true) (h2 : okComp a = true) :
    normComps (cs ++ [a]) = true := by
  unfold normComps at *
  rw [List.all_append, Bool.and_eq_true]
  exact ⟨h1, by simp [List.all_cons, h2]⟩

lemma isDescendant_append (l m : List String) : isDescendant l (l ++ m) = true := by
  induction l with
  | nil => rfl
  | cons a l ih => simp [isDescendant, ih]

lemma isDescendant_refl (l : List String) : isDescendant l l = true := by
  have h := isDescendant_append l []
  simpa using h

lemma lastName_concat (l : List String) (a : String) : lastName (l ++ [a]) = a := by
  induction l with
  | nil => rfl
  | cons b l ih =>
      cases l with
      | nil => rfl
      | cons c cs => exact ih

lemma memB_removeAll (l : List (List String)) (p : List String) :
    memB p (removeAll l p) = false := by
  induction l with
  | nil => rfl
  | cons q l ih =>
      unfold removeAll
      by_cases h : q = p
      · rw [if_pos h]
        exact ih
      · rw [if_neg h]
        simp [memB, h, ih]

lemma removeAll_cons (q : List String) (l : List (List String)) (p : List String) :
    removeAll (q :: l) p = if q = p then removeAll l p else q :: removeAll l p := rfl

lemma removeAll_removeAll (l : List (List String)) (p : List String) :
    removeAll (removeAll l p) p = removeAll l p := by
  induction l with
  | nil => rfl
  | cons q l ih =>
      rw [removeAll_cons]
      by_cases h : q = p
      · rw [if_pos h]
        exact ih
      · rw [if_neg h, removeAll_cons, if_neg h, ih]

lemma okComp_of_allowed (s : String)
    (h : ALLOWED_EXTENSIONS.contains (lowerStr (suffixStr s)) = true) :
    okComp s = true := by
  by_cases h1 : s = "."
  · subst h1; exact absurd h (by decide)
  by_cases h2 : s = ".."
  · subst h2; exact absurd h (by decide)
  simp [okComp, h1, h2]

/-! ## Claim theorems: the retrieval guard -/

/-- Claim C2: every requested filename whose path, joined to the storage
directory and resolved, is not a descendant of the resolved storage
directory is rejected by `get_downloaded_file` with the traversal rejection
(HTTP 400), for every filesystem state — so regardless of whether the
target exists and before the extension and existence guards run. -/
theorem get_file_traversal_reject (dir : List String) (st : FsState) (filename : String)
    (h : isDescendant (resolveComps dir) (resolvedRequestPath dir filename) = false) :
    get_downloaded_file dir st filename = Except.error ⟨400, "Invalid file path."⟩ := by
  simp [get_downloaded_file, h]

/-- Witness for C2: a `../` escape is rejected as traversal even though the
escaped-to file exists on disk. -/
theorem get_file_traversal_reject_witness :
    get_downloaded_file ["srv", "downloads"] ⟨[["etc", "passwd"]], [["srv"]]⟩ "../../etc/passwd" =
      Except.error ⟨400, "Invalid file path."⟩ :=
  get_file_traversal_reject ["srv", "downloads"] ⟨[["etc", "passwd"]], [["srv"]]⟩
    "../../etc/passwd" (by decide)

/-- Claim C8: every requested filename that passes the traversal guard but
whose resolved extension, lower-cased, is not in the fixed allow-list is
rejected with the disallowed-type rejection (HTTP 400), for every
filesystem state — so even when the file exists. -/
theorem get_file_extension_reject (dir : List String) (st : FsState) (filename : String)
    (h1 : isDescendant (resolveComps dir) (resolvedRequestPath dir filename) = true)
    (h2 : ALLOWED_EXTENSIONS.contains
        (lowerStr (suffixStr (lastName (resolvedRequestPath dir filename)))) = false) :
    get_downloaded_file dir st filename = Except.error ⟨400, "File type not permitted."⟩ := by
  unfold get_downloaded_file
  rw [h1, if_neg (show ¬ (true = false) from by decide), if_pos h2]

/-- Witness for C8: an existing well-formed text file is still rejected. -/
theorem get_file_extension_reject_witness :
    get_downloaded_file ["srv", "downloads"] ⟨[["srv", "downloads", "notes.txt"]], []⟩ "notes.txt" =
      Except.error ⟨400, "File type not permitted."⟩ :=
  get_file_extension_reject ["srv", "downloads"] ⟨[["srv", "downloads", "notes.txt"]], []⟩
    "notes.txt" (by decide) (by decide)

/-- Helper for C9: whenever a rejection guard fires, the response is exactly
the fixed status code and detail of that guard. -/
theorem rejBranch_spec (dir : List String) (st : FsState) (filename : String)
    (k : RejectKind) (h : rejBranch dir st filename = some k) :
    get_downloaded_file dir st filename = Except.error ⟨rejectCode k, rejectDetail k⟩ := by
  unfold rejBranch at h
  by_cases h1 : isDescendant (resolveComps dir) (resolvedRequestPath dir filename) = false
  · rw [if_pos h1] at h
    cases Option.some.inj h
    unfold get_downloaded_file
    rw [if_pos h1]
    rfl
  · rw [if_neg h1] at h
    by_cases h2 : ALLOWED_EXTENSIONS.contains
        (lowerStr (suffixStr (lastName (resolvedRequestPath dir filename)))) = false
    · rw [if_pos h2] at h
      cases Option.some.inj h
      unfold get_downloaded_file
      rw [if_neg h1, if_pos h2]
      rfl
    · rw [if_neg h2] at h
      by_cases h3 : (pathExists st (resolvedRequestPath dir filename) &&
          isFile st (resolvedRequestPath dir filename)) = false
      · rw [if_pos h3] at h
        cases Option.some.inj h
        unfold get_downloaded_file
        rw [if_neg h1, if_neg h2, if_pos h3]
        rfl
      · rw [if_neg h3] at h
        cases h

/-- Claim C9: noninterference of rejection bodies.  Two requested filenames
that take the same rejection guard receive the identical error detail, a
fixed constant (`rejectDetail`) that depends only on the guard and never on
the requested filename, so no filename is echoed in a rejection body. -/
theorem get_file_noninterference (dir : List String) (st : FsState)
    (f₁ f₂ : String) (k : RejectKind)
    (h1 : rejBranch dir st f₁ = some k) (h2 : rejBranch dir st f₂ = some k) :
    ∃ d, get_downloaded_file dir st f₁ = Except.error ⟨rejectCode k, d⟩ ∧
      get_downloaded_file dir st f₂ = Except.error ⟨rejectCode k, d⟩ ∧
      d = rejectDetail k :=
  ⟨rejectDetail k, rejBranch_spec dir st f₁ k h1, rejBranch_spec dir st f₂ k h2, rfl⟩

/-- Witness for C9: two different traversal attempts receive the same fixed
detail string. -/
theorem get_file_noninterference_witness :
    ∃ d, get_downloaded_file ["srv", "downloads"] ⟨[], []⟩ "../one" =
        Except.error ⟨rejectCode RejectKind.traversal, d⟩ ∧
      get_downloaded_file ["srv", "downloads"] ⟨[], []⟩ "/two" =
        Except.error ⟨rejectCode RejectKind.traversal, d⟩ ∧
      d = rejectDetail RejectKind.traversal :=
  get_file_noninterference ["srv", "downloads"] ⟨[], []⟩ "../one" "/two"
    RejectKind.traversal (by decide) (by decide)

/-- Claim C10: a requested filename whose joined-and-resolved path equals
the resolved storage directory itself (for example the single dot) passes
the traversal guard — equality counts as containment — and is then rejected
by the extension guard with HTTP 400, because the directory name
`downloads` has no allow-listed extension. -/
theorem get_file_storage_dir_itself (base : List String) (st : FsState) (filename : String)
    (hb : normComps base = true)
    (hres : resolvedRequestPath (base ++ ["downloads"]) filename = base ++ ["downloads"]) :
    isDescendant (resolveComps (base ++ ["downloads"]))
      (resolvedRequestPath (base ++ ["downloads"]) filename) = true ∧
    get_downloaded_file (base ++ ["downloads"]) st filename =
      Except.error ⟨400, "File type not permitted."⟩ := by
  have hnorm : normComps (base ++ ["downloads"]) = true :=
    normComps_append1 base "downloads" hb (by decide)
  have hdir : resolveComps (base ++ ["downloads"]) = base ++ ["downloads"] :=
    resolveComps_eq_self _ hnorm
  have hdesc : isDescendant (resolveComps (base ++ ["downloads"]))
      (resolvedRequestPath (base ++ ["downloads"]) filename) = true := by
    rw [hres, hdir]
    exact isDescendant_refl _
  refine ⟨hdesc, ?_⟩
  have hsuf : ALLOWED_EXTENSIONS.contains
      (lowerStr (suffixStr (lastName
        (resolvedRequestPath (base ++ ["downloads"]) filename)))) = false := by
    rw [hres, lastName_concat]
    decide
  unfold get_downloaded_file
  rw [hdesc, if_neg (show ¬ (true = false) from by decide), if_pos hsuf]

/-- Witness for C10: requesting the single dot resolves to the storage
directory, passes the traversal guard, and is rejected by the extension
guard. -/
theorem get_file_storage_dir_itself_witness :
    isDescendant (resolveComps (["srv"] ++ ["downloads"]))
      (resolvedRequestPath (["srv"] ++ ["downloads"]) ".") = true ∧
    get_downloaded_file (["srv"] ++ ["downloads"]) ⟨[], [["srv", "downloads"]]⟩ "." =
      Except.error ⟨400, "File type not permitted."⟩ :=
  get_file_storage_dir_itself ["srv"] ⟨[], [["srv", "downloads"]]⟩ "." (by decide) (by decide)

/-! ## Claim theorems: output-path validation of the invoker -/

/-- Claim C1: after a zero exit code, the candidate output path is the last
non-empty stripped stdout line; a success outcome is only ever produced
when the resolved candidate is a descendant of the storage directory and
exists on disk, and the returned filename is the bare name of the
candidate; whenever there is no candidate, or the containment check fails,
or the path does not exist, the outcome is HTTP 500 with exactly the detail
of src/app.py:267. -/
theorem run_download_locate (dir cwd : List String) (st : FsState)
    (svc stdout stderr : String) :
    (∀ msg fname,
      run_download_completed dir cwd st svc 0 stdout stderr = Except.ok (msg, fname) →
      ∃ lastLine,
        (nonEmptyLines stdout).getLast? = some lastLine ∧
        isDescendant (resolveComps dir) (resolveAbs cwd (parsePath lastLine)) = true ∧
        pathExists st (resolveAbs cwd (parsePath lastLine)) = true ∧
        fname = lastName (parsePath lastLine).comps) ∧
    ((nonEmptyLines stdout = [] ∨
      ∃ lastLine,
        (nonEmptyLines stdout).getLast? = some lastLine ∧
        (isDescendant (resolveComps dir) (resolveAbs cwd (parsePath lastLine)) = false ∨
         pathExists st (resolveAbs cwd (parsePath lastLine)) = false)) →
      run_download_completed dir cwd st svc 0 stdout stderr =
        Except.error ⟨500, "Download completed but the output file could not be located."⟩) := by
  have h0 : ¬ ((0 : Int) ≠ 0) := fun h => h rfl
  constructor
  · intro msg fname h
    unfold run_download_completed at h
    rw [if_neg h0] at h
    cases hL : (nonEmptyLines stdout).getLast? with
    | none =>
        simp only [hL] at h
        exact Except.noConfusion h
    | some lastLine =>
        simp only [hL] at h
        by_cases hd : isDescendant (resolveComps dir) (resolveAbs cwd (parsePath lastLine)) = false
        · rw [if_pos hd] at h
          exact Except.noConfusion h
        · rw [if_neg hd] at h
          by_cases he : pathExists st (resolveAbs cwd (parsePath lastLine)) = false
          · rw [if_pos he] at h
            exact Except.noConfusion h
          · rw [if_neg he] at h
            have hp := Except.ok.inj h
            refine ⟨lastLine, rfl, ?_, ?_, ?_⟩
            · cases hb : isDescendant (resolveComps dir) (resolveAbs cwd (parsePath lastLine)) with
              | false => exact absurd hb hd
              | true => rfl
            · cases hb : pathExists st (resolveAbs cwd (parsePath lastLine)) with
              | false => exact absurd hb he
              | true => rfl
            · exact (congrArg Prod.snd hp).symm
  · intro hdis
    unfold run_download_completed
    rw [if_neg h0]
    rcases hdis with hnil | ⟨lastLine, hL, hor⟩
    · have hL : (nonEmptyLines stdout).getLast? = none := by rw [hnil]; rfl
      simp only [hL]
    · simp only [hL]
      rcases hor with hd | he
      · rw [if_pos hd]
      · by_cases hd2 : isDescendant (resolveComps dir) (resolveAbs cwd (parsePath lastLine)) = false
        · rw [if_pos hd2]
        · rw [if_neg hd2, if_pos he]

/-- Witness for C1: a tool that prints a path outside the storage directory
yields the internal-error outcome, and the escaped path is never served. -/
theorem run_download_locate_witness :
    run_download_completed ["srv", "downloads"] [] ⟨[], []⟩ "Generic" 0 "/etc/passwd" "" =
      Except.error ⟨500, "Download completed but the output file could not be located."⟩ :=
  (run_download_locate ["srv", "downloads"] [] ⟨[], []⟩ "Generic" "/etc/passwd" "").2
    (Or.inr ⟨"/etc/passwd", by decide, Or.inl (by decide)⟩)

/-! ## Claim theorems: error sanitizer -/

/-- Claim C5: `sanitize_error` keeps at most the last two non-empty trimmed
lines joined by the separator, with path-like substrings replaced by the
redaction token, and returns the fixed string when the input has no
non-empty line. -/
theorem sanitize_error_spec (raw : String) :
    (nonEmptyLines raw = [] → sanitize_error raw = "Unknown error.") ∧
    (nonEmptyLines raw ≠ [] →
      sanitize_error raw =
        redactPaths (String.intercalate " | "
          ((nonEmptyLines raw).drop ((nonEmptyLines raw).length - 2)))) ∧
    ((nonEmptyLines raw).drop ((nonEmptyLines raw).length - 2)).length ≤ 2 := by
  refine ⟨?_, ?_, ?_⟩
  · intro h
    simp only [sanitize_error]
    rw [if_pos h]
    decide
  · intro h
    simp only [sanitize_error]
    rw [if_neg h]
  · rw [List.length_drop]
    omega

/-- Witness for C5: the empty input gives the fixed message, and a
three-line diagnostic keeps only the last two lines. -/
theorem sanitize_error_spec_witness :
    sanitize_error "" = "Unknown error." ∧
    nonEmptyLines "one\ntwo\nthree" ≠ [] ∧
    sanitize_error "one\ntwo\nthree" =
      redactPaths (String.intercalate " | "
        ((nonEmptyLines "one\ntwo\nthree").drop
          ((nonEmptyLines "one\ntwo\nthree").length - 2))) :=
  ⟨(sanitize_error_spec "").1 (by decide), by decide,
   (sanitize_error_spec "one\ntwo\nthree").2.1 (by decide)⟩

/-! ## Claim theorems: service registry -/

/-- Helper for C4: `resolve` is the first-match-wins chain over the five
registered extensions, in registration order. -/
theorem resolve_chain (url : String) :
    resolve url =
      (if svcMatches ytExt url then some ytExt
       else if svcMatches igExt url then some igExt
       else if svcMatches fbExt url then some fbExt
       else if svcMatches ttExt url then some ttExt
       else if svcMatches genExt url then some genExt
       else none) := by
  unfold resolve registryList
  cases h1 : svcMatches ytExt url <;> cases h2 : svcMatches igExt url <;>
    cases h3 : svcMatches fbExt url <;> cases h4 : svcMatches ttExt url <;>
      cases h5 : svcMatches genExt url <;>
        simp [List.find?, h1, h2, h3, h4, h5]

/-- Claim C4: `resolve` returns the first registered extension, in
registration order, whose pattern matches the URL case-insensitively, and
returns none exactly when no rule matches; any URL containing the HTTP or
HTTPS scheme (any letter case) resolves to some service, so the
unprocessable branch of the download endpoint is only reachable for inputs
with no HTTP(S) scheme. -/
theorem service_resolve_catchall (url : String) :
    (resolve url =
      (if svcMatches ytExt url then some ytExt
       else if svcMatches igExt url then some igExt
       else if svcMatches fbExt url then some fbExt
       else if svcMatches ttExt url then some ttExt
       else if svcMatches genExt url then some genExt
       else none)) ∧
    (resolve url = none ↔ ∀ e ∈ registryList, svcMatches e url = false) ∧
    ((containsSub (lowerStr url) "http://" = true ∨
      containsSub (lowerStr url) "https://" = true) →
      ∃ e, resolve url = some e) ∧
    (download_resolve url = Except.error ⟨422, "No extension available for this URL."⟩ →
      containsSub (lowerStr url) "http://" = false ∧
      containsSub (lowerStr url) "https://" = false) := by
  have h2 : resolve url = none ↔ ∀ e ∈ registryList, svcMatches e url = false := by
    unfold resolve
    rw [List.find?_eq_none]
    constructor
    · intro h e he
      have := h e he
      cases hb : svcMatches e url with
      | false => rfl
      | true => exact absurd hb this
    · intro h e he
      rw [h e he]
      exact Bool.false_ne_true
  have h3 : (containsSub (lowerStr url) "http://" = true ∨
      containsSub (lowerStr url) "https://" = true) → ∃ e, resolve url = some e := by
    intro hor
    have hg : svcMatches genExt url = true := by
      rcases hor with hc | hc <;> simp [svcMatches, genExt, hc]
    rw [resolve_chain url]
    by_cases c1 : svcMatches ytExt url = true
    · rw [if_pos c1]; exact ⟨ytExt, rfl⟩
    · rw [if_neg c1]
      by_cases c2 : svcMatches igExt url = true
      · rw [if_pos c2]; exact ⟨igExt, rfl⟩
      · rw [if_neg c2]
        by_cases c3 : svcMatches fbExt url = true
        · rw [if_pos c3]; exact ⟨fbExt, rfl⟩
        · rw [if_neg c3]
          by_cases c4 : svcMatches ttExt url = true
          · rw [if_pos c4]; exact ⟨ttExt, rfl⟩
          · rw [if_neg c4, if_pos hg]; exact ⟨genExt, rfl⟩
  refine ⟨resolve_chain url, h2, h3, ?_⟩
  intro h
  cases hr : resolve url with
  | some e =>
      unfold download_resolve at h
      simp only [hr] at h
      exact Except.noConfusion h
  | none =>
      have hgen : svcMatches genExt url = false := h2.mp hr genExt (by decide)
      constructor
      · cases hc : containsSub (lowerStr url) "http://" with
        | false => rfl
        | true =>
            exfalso
            have : svcMatches genExt url = true := by simp [svcMatches, genExt, hc]
            rw [this] at hgen
            exact Bool.noConfusion hgen
      · cases hc : containsSub (lowerStr url) "https://" with
        | false => rfl
        | true =>
            exfalso
            have : svcMatches genExt url = true := by simp [svcMatches, genExt, hc]
            rw [this] at hgen
            exact Bool.noConfusion hgen

/-- Witness for C4: an upper-case HTTPS URL that matches no platform rule
still resolves to some service via the catch-all. -/
theorem service_resolve_catchall_witness :
    ∃ e, resolve "HTTPS://Example.com/clip" = some e :=
  (service_resolve_catchall "HTTPS://Example.com/clip").2.2.1 (Or.inr (by decide))

/-! ## Claim theorems: cleanup loop -/

/-- Claim C3 (code behaviour at the failing input): deleting an
already-absent path never raises and is a no-op, and a file gone before the
`is_file` check is skipped harmlessly; but a file that vanishes between the
`is_file` check and the `stat` call makes the scan pass abort with an
uncaught exception (second component true), killing the cleanup task, while
the same entry still present at the `stat` call is deleted normally. -/
theorem cleanup_stat_race_crash :
    (cleanupIterate 1000 FILE_TTL_SECONDS
      [⟨["srv", "downloads", "a.mp4"], true, false, 0⟩]).2 = true ∧
    (cleanupIterate 1000 FILE_TTL_SECONDS
      [⟨["srv", "downloads", "a.mp4"], false, false, 0⟩,
       ⟨["srv", "downloads", "b.mp4"], true, true, 0⟩]) =
      ([["srv", "downloads", "b.mp4"]], false) ∧
    (cleanupIterate 1000 FILE_TTL_SECONDS
      [⟨["srv", "downloads", "a.mp4"], true, true, 0⟩]) =
      ([["srv", "downloads", "a.mp4"]], false) ∧
    delete_file ⟨[], [["srv", "downloads"]]⟩ ["srv", "downloads", "gone.mp4"] =
      ⟨[], [["srv", "downloads"]]⟩ ∧
    (∀ st p, delete_file (delete_file st p) p = delete_file st p) := by
  refine ⟨by decide, by decide, by decide, by decide, ?_⟩
  intro st p
  unfold delete_file
  simp only
  congr 1
  exact removeAll_removeAll st.files p

/-! ## Claim theorems: download and retrieval round trip -/

/-- Counterexample to claim C7 as stated: a download can succeed (zero exit
code, contained and existing output file) while the returned filename never
passes the retrieval guard, because the invoker does not check the
extension allow-list.  A tool that produces `track.wav` yields a success
outcome whose filename is rejected with HTTP 400 on the very first
retrieval attempt, before any deletion. -/
theorem roundtrip_counterexample :
    run_download_completed ["srv", "downloads"] []
      ⟨[["srv", "downloads", "track.wav"]], [["srv"], ["srv", "downloads"]]⟩
      "YouTube" 0 "/srv/downloads/track.wav" "" =
      Except.ok ("Download completed via YouTube.", "track.wav") ∧
    get_downloaded_file ["srv", "downloads"]
      ⟨[["srv", "downloads", "track.wav"]], [["srv"], ["srv", "downloads"]]⟩ "track.wav" =
      Except.error ⟨400, "File type not permitted."⟩ :=
  ⟨rfl, rfl⟩

/-- Claim C7 (amended): for every successful download whose located file is
a direct child of the storage directory with an allow-listed extension, the
returned bare filename passes all three retrieval guards and the file path
is returned for streaming; after the post-serve deletion, a second
retrieval attempt for the same filename fails with HTTP 404. -/
theorem roundtrip_after_delete
    (dir cwd : List String) (st : FsState) (svc stdout stderr msg fname : String)
    (hdir : normComps dir = true)
    (hrun : run_download_completed dir cwd st svc 0 stdout stderr = Except.ok (msg, fname))
    (hname : goodName fname = true)
    (hfile : memB (dir ++ [fname]) st.files = true)
    (hext : ALLOWED_EXTENSIONS.contains (lowerStr (suffixStr fname)) = true) :
    get_downloaded_file dir st fname = Except.ok (dir ++ [fname]) ∧
    get_downloaded_file dir (delete_file st (dir ++ [fname])) fname =
      Except.error ⟨404, "File not found or has already been deleted."⟩ := by
  have hparse : parsePath fname = PurePath.mk false [fname] := of_decide_eq_true hname
  have hok : okComp fname = true := okComp_of_allowed fname hext
  have hsafe : resolvedRequestPath dir fname = dir ++ [fname] := by
    unfold resolvedRequestPath
    rw [hparse]
    show resolveComps (dir ++ [fname]) = dir ++ [fname]
    exact resolveComps_eq_self _ (normComps_append1 dir fname hdir hok)
  have hdirres : resolveComps dir = dir := resolveComps_eq_self _ hdir
  have hdesc : isDescendant (resolveComps dir) (resolvedRequestPath dir fname) = true := by
    rw [hsafe, hdirres]
    exact isDescendant_append dir [fname]
  have hsuf : ALLOWED_EXTENSIONS.contains
      (lowerStr (suffixStr (lastName (resolvedRequestPath dir fname)))) = true := by
    rw [hsafe, lastName_concat]
    exact hext
  constructor
  · unfold get_downloaded_file
    rw [hdesc, if_neg (show ¬ (true = false) from by decide)]
    rw [hsuf, if_neg (show ¬ (true = false) from by decide)]
    have hex : (pathExists st (resolvedRequestPath dir fname) &&
        isFile st (resolvedRequestPath dir fname)) = true := by
      simp [pathExists, isFile, hsafe, hfile]
    rw [hex, if_neg (show ¬ (true = false) from by decide), hsafe]
  · unfold get_downloaded_file
    rw [hdesc, if_neg (show ¬ (true = false) from by decide)]
    rw [hsuf, if_neg (show ¬ (true = false) from by decide)]
    have hgone : isFile (delete_file st (dir ++ [fname])) (dir ++ [fname]) = false :=
      memB_removeAll st.files (dir ++ [fname])
    have hex : (pathExists (delete_file st (dir ++ [fname])) (resolvedRequestPath dir fname) &&
        isFile (delete_file st (dir ++ [fname])) (resolvedRequestPath dir fname)) = false := by
      rw [hsafe, hgone, Bool.and_false]
    rw [hex, if_pos rfl]

/-- Witness for C7 (amended): an mp4 download is served exactly once and a
second attempt after the post-serve deletion fails with 404. -/
theorem roundtrip_after_delete_witness :
    get_downloaded_file ["srv", "downloads"]
      ⟨[["srv", "downloads", "clip.mp4"]], []⟩ "clip.mp4" =
      Except.ok (["srv", "downloads"] ++ ["clip.mp4"]) ∧
    get_downloaded_file ["srv", "downloads"]
      (delete_file ⟨[["srv", "downloads", "clip.mp4"]], []⟩
        (["srv", "downloads"] ++ ["clip.mp4"])) "clip.mp4" =
      Except.error ⟨404, "File not found or has already been deleted."⟩ :=
  roundtrip_after_delete ["srv", "downloads"] [] ⟨[["srv", "downloads", "clip.mp4"]], []⟩
    "YouTube" "/srv/downloads/clip.mp4" "" "Download completed via YouTube." "clip.mp4"
    (by decide) rfl (by decide) (by decide) (by decide)

end MediaDL
